import Mathlib

set_option maxHeartbeats 1000000
set_option maxRecDepth 10000

/- The Batteries rational primitives are sealed; reopen them so that
concrete evaluations go through by kernel reduction. -/
unseal Rat.add Rat.sub Rat.mul Rat.inv

/-
Shallow embedding of the FloorModeAnime core pipeline:
parser.js (parseFloorData), validator.js (validateFloorData) and
animation.js (AnimationController).

JavaScript numbers appearing in parser/validator data are modelled by `JNum`
(a rational together with the special values NaN, Infinity, -Infinity),
because the validator branches on NaN/Infinity explicitly.  The animation
module is modelled over plain rationals, since its claims are algebraic;
Math.sin and the irrational constant 2*pi are abstracted as parameters.
-/

/- A JavaScript number: NaN, +Infinity, -Infinity, or a finite value
(modelled as an exact rational). -/
inductive JNum where
  | nan
  | inf
  | ninf
  | fin (q : ℚ)
deriving DecidableEq, Repr

/- Number.isNaN -/
def JNum.isNaN : JNum → Bool
  | .nan => true
  | _ => false

/- Number.isFinite -/
def JNum.isFinite : JNum → Bool
  | .fin _ => true
  | _ => false

/- JavaScript `<=` on numbers: any comparison involving NaN is false. -/
def JNum.jle : JNum → JNum → Bool
  | .nan, _ => false
  | _, .nan => false
  | .ninf, _ => true
  | _, .ninf => false
  | _, .inf => true
  | .inf, _ => false
  | .fin a, .fin b => decide (a ≤ b)

/- JavaScript `>` on numbers: any comparison involving NaN is false. -/
def JNum.jgt : JNum → JNum → Bool
  | .nan, _ => false
  | _, .nan => false
  | .inf, .inf => false
  | .inf, _ => true
  | _, .inf => false
  | .ninf, _ => false
  | _, .ninf => true
  | .fin a, .fin b => decide (b < a)

/- JavaScript strict equality `===` on numbers: NaN === NaN is false
(unlike SameValueZero used for Map/Set keys, which is structural here). -/
def JNum.seq : JNum → JNum → Bool
  | .nan, _ => false
  | _, .nan => false
  | a, b => decide (a = b)

/- JavaScript subtraction. -/
def JNum.jsub : JNum → JNum → JNum
  | .nan, _ => .nan
  | _, .nan => .nan
  | .inf, .inf => .nan
  | .inf, _ => .inf
  | .ninf, .ninf => .nan
  | .ninf, _ => .ninf
  | .fin _, .inf => .ninf
  | .fin _, .ninf => .inf
  | .fin a, .fin b => .fin (a - b)

/- Math.abs -/
def JNum.jabs : JNum → JNum
  | .nan => .nan
  | .inf => .inf
  | .ninf => .inf
  | .fin q => .fin |q|

/- String rendering of a number, used only inside diagnostic messages. -/
def JNum.toStr : JNum → String
  | .nan => "NaN"
  | .inf => "Infinity"
  | .ninf => "-Infinity"
  | .fin q => toString q

/- A JavaScript `Map` preserving insertion order: an association list whose
keys are unique whenever the map was built through `set` only.  `set` on an
existing key replaces the value in place (keeping the original position),
matching JS Map semantics; key equality is SameValueZero, matched here by
structural equality on `JNum`. -/
structure JMap (K V : Type) where
  entries : List (K × V)
deriving DecidableEq, Repr

/- First-match lookup over the entry list (a genuine Map has unique keys). -/
def lookupFirst {K V : Type} [DecidableEq K] : List (K × V) → K → Option V
  | [], _ => none
  | p :: rest, k => if p.1 = k then some p.2 else lookupFirst rest k

/- Map.prototype.set: replace in place, else append. -/
def setEntries {K V : Type} [DecidableEq K] : List (K × V) → K → V → List (K × V)
  | [], k, v => [(k, v)]
  | p :: rest, k, v => if p.1 = k then (k, v) :: rest else p :: setEntries rest k v

def JMap.get? {K V : Type} [DecidableEq K] (m : JMap K V) (k : K) : Option V :=
  lookupFirst m.entries k

def JMap.set {K V : Type} [DecidableEq K] (m : JMap K V) (k : K) (v : V) : JMap K V :=
  ⟨setEntries m.entries k v⟩

def JMap.has {K V : Type} [DecidableEq K] (m : JMap K V) (k : K) : Bool :=
  (m.get? k).isSome

def JMap.size {K V : Type} (m : JMap K V) : Nat :=
  m.entries.length

def JMap.keysList {K V : Type} (m : JMap K V) : List K :=
  m.entries.map Prod.fst

def JMap.valuesList {K V : Type} (m : JMap K V) : List V :=
  m.entries.map Prod.snd

def JMap.empty {K V : Type} : JMap K V := ⟨[]⟩

/- ===== parser.js ===== -/

/- One element of the raw `nodes` array after JSON parsing and key
normalization; `none` coordinates model absent fields (`n.x ?? 0`). -/
structure RawNode where
  id : JNum
  x : Option JNum
  y : Option JNum
  z : Option JNum
deriving DecidableEq, Repr

/- A canonical node record {id, x, y, z}. -/
structure NodeRec where
  id : JNum
  x : JNum
  y : JNum
  z : JNum
deriving DecidableEq, Repr

/- A line element {id, nodeI, nodeJ}. -/
structure LineRec where
  id : JNum
  nodeI : JNum
  nodeJ : JNum
deriving DecidableEq, Repr

/- The raw dataset handed to parseFloorData after JSON.parse and camelCase
key conversion; `none` models an absent (or non-array / non-object) key,
and numeric coercion of the JSON leaves is already applied. -/
structure RawFloorData where
  nodes : Option (List RawNode)
  lines : Option (List LineRec)
  freqHz : Option (List (JNum × JNum))
  modes : Option (List (JNum × Option (List (JNum × JNum))))
deriving DecidableEq, Repr

/- Result of parseFloorData (the `meta` field carries no claim-relevant
information and is omitted). -/
structure FloorData where
  nodes : JMap JNum NodeRec
  nodeIdCounts : JMap JNum Nat
  lines : List LineRec
  freqHz : JMap JNum JNum
  modes : JMap JNum (JMap JNum JNum)
deriving DecidableEq, Repr

/- The nodes loop of parseFloorData: builds the canonical node map
(last write wins) and the occurrence-count map. -/
def buildNodesLoop : List RawNode → JMap JNum NodeRec → JMap JNum Nat →
    JMap JNum NodeRec × JMap JNum Nat
  | [], nodes, counts => (nodes, counts)
  | n :: rest, nodes, counts =>
    let id := n.id
    let x := n.x.getD (JNum.fin 0)
    let y := n.y.getD (JNum.fin 0)
    let z := n.z.getD (JNum.fin 0)
    buildNodesLoop rest (nodes.set id ⟨id, x, y, z⟩)
      (counts.set id (((counts.get? id).getD 0) + 1))

/- The per-mode loop body of parseFloorData: initialize every node id with
uz = 0.0, then overwrite with the amplitudes present in the source. -/
def buildUzMap (nodes : JMap JNum NodeRec) (modeVal : Option (List (JNum × JNum))) :
    JMap JNum JNum :=
  let base := nodes.entries.foldl (fun acc p => acc.set p.1 (JNum.fin 0)) JMap.empty
  match modeVal with
  | none => base
  | some entries => entries.foldl (fun acc p => acc.set p.1 p.2) base

/- parseFloorData (starting from the structured raw tree). -/
def parseFloorData (raw : RawFloorData) : FloorData :=
  let nc := buildNodesLoop (raw.nodes.getD []) JMap.empty JMap.empty
  let nodes := nc.1
  let lines := raw.lines.getD []
  let freqHz := (raw.freqHz.getD []).foldl (fun acc p => acc.set p.1 p.2) JMap.empty
  let modes := (raw.modes.getD []).foldl
    (fun acc p => acc.set p.1 (buildUzMap nodes p.2)) JMap.empty
  ⟨nodes, nc.2, lines, freqHz, modes⟩

/- ===== validator.js ===== -/

/- Floating point tolerance EPS = 1e-9. -/
def EPS : ℚ := 1 / 1000000000

/- Error collection cap MAX_ERRORS = 100. -/
def MAX_ERRORS : Nat := 100

/- One entry of the validation report. -/
structure Entry where
  code : String
  message : String
deriving DecidableEq, Repr

/- The report returned by validateFloorData. -/
structure Report where
  errors : List Entry
  warnings : List Entry
deriving DecidableEq, Repr

/- pushError: append with cap check; the returned Bool is true when the
caller must return early (limit reached). -/
def pushError (l : List Entry) (code msg : String) : List Entry × Bool :=
  if MAX_ERRORS ≤ l.length then (l, true)
  else
    let l2 := l ++ [⟨code, code ++ ": " ++ msg⟩]
    (l2, MAX_ERRORS ≤ l2.length)

/- pushWarning: append, with no cap check. -/
def pushWarning (l : List Entry) (code msg : String) : List Entry :=
  l ++ [⟨code, code ++ ": " ++ msg⟩]

/- The input destructured by validateFloorData; `none` models an
undefined/null key (the repository always passes parseFloorData output,
whose four collections are genuine Maps/Arrays when present). -/
structure VInput where
  nodes : Option (JMap JNum NodeRec)
  lines : Option (List LineRec)
  freqHz : Option (JMap JNum JNum)
  modes : Option (JMap JNum (JMap JNum JNum))
deriving DecidableEq, Repr

/- The running state of validateFloorData: the report built so far plus a
flag recording that one of the early `return {errors, warnings}` statements
has executed (after which nothing further runs). -/
structure VState where
  report : Report
  halted : Bool
deriving DecidableEq, Repr

/- One `pushError` call followed by the `if (limitReached) return` that the
source places after every append. -/
def stepE (s : VState) (code msg : String) : VState :=
  if s.halted then s
  else
    let pr := pushError s.report.errors code msg
    ⟨⟨pr.1, s.report.warnings⟩, pr.2⟩

/- One `pushWarning` call. -/
def stepW (s : VState) (code msg : String) : VState :=
  if s.halted then s
  else ⟨⟨s.report.errors, pushWarning s.report.warnings code msg⟩, false⟩

/- Membership in a JS Set of numbers (SameValueZero key equality). -/
def listHas : List JNum → JNum → Bool
  | [], _ => false
  | a :: rest, k => if a = k then true else listHas rest k

/- Set.prototype.add. -/
def insertSeen (seen : List JNum) (k : JNum) : List JNum :=
  if listHas seen k then seen else seen ++ [k]

/- Required-key presence loop, in source order nodes, lines, freqHz, modes. -/
def requiredLoop : List (String × Bool) → VState → VState
  | [], s => s
  | kv :: rest, s =>
    let s2 := if kv.2 then s else stepE s "E_MISSING_KEY" ("required key \"" ++ kv.1 ++ "\" is missing")
    requiredLoop rest s2

def requiredList (inp : VInput) : List (String × Bool) :=
  [("nodes", inp.nodes.isSome), ("lines", inp.lines.isSome),
   ("freqHz", inp.freqHz.isSome), ("modes", inp.modes.isSome)]

/- The `if (errors.length > 0) return` after the required-key loop. -/
def haltIfErrors (s : VState) : VState :=
  if s.halted then s
  else if 0 < s.report.errors.length then ⟨s.report, true⟩ else s

/- nodes emptiness check: `!(nodes instanceof Map) || nodes.size === 0`. -/
def nodesEmptyCheck (nodes : Option (JMap JNum NodeRec)) (s : VState) : VState :=
  match nodes with
  | none => stepE s "E_NODES_EMPTY" "nodes is empty"
  | some nm => if nm.size = 0 then stepE s "E_NODES_EMPTY" "nodes is empty" else s

/- Duplicate node id scan over the (already key-unique) node Map. -/
def dupNodeLoop : List (JNum × NodeRec) → List JNum → Nat → VState → VState
  | [], _, _, s => s
  | p :: rest, seen, idx, s =>
    let s2 := if listHas seen p.1 then
        stepE s "E_NODE_DUPLICATE"
          ("nodes[" ++ toString idx ++ "].id=" ++ p.1.toStr ++ " is duplicated")
      else s
    dupNodeLoop rest (insertSeen seen p.1) (idx + 1) s2

/- lines emptiness check: `!Array.isArray(lines) || lines.length === 0`. -/
def linesEmptyCheck (lines : Option (List LineRec)) (s : VState) : VState :=
  match lines with
  | none => stepE s "E_LINES_EMPTY" "lines is empty"
  | some ls => if ls.length = 0 then stepE s "E_LINES_EMPTY" "lines is empty" else s

/- Per-line checks: duplicate line id, dangling endpoints (only when nodes
is a Map), self loop (strict equality `===`). -/
def linesLoop (nodes : Option (JMap JNum NodeRec)) :
    List LineRec → List JNum → Nat → VState → VState
  | [], _, _, s => s
  | line :: rest, seen, i, s =>
    let s2 := if listHas seen line.id then
        stepE s "E_LINE_DUPLICATE"
          ("lines[" ++ toString i ++ "].id=" ++ line.id.toStr ++ " is duplicated")
      else s
    let s3 := match nodes with
      | some nm =>
        let sI := if !(nm.has line.nodeI) then
            stepE s2 "E_LINE_NODE_UNDEF"
              ("lines[" ++ toString i ++ "].nodeI=" ++ line.nodeI.toStr ++ " is not defined in nodes")
          else s2
        if !(nm.has line.nodeJ) then
          stepE sI "E_LINE_NODE_UNDEF"
            ("lines[" ++ toString i ++ "].nodeJ=" ++ line.nodeJ.toStr ++ " is not defined in nodes")
        else sI
      | none => s2
    let s4 := if JNum.seq line.nodeI line.nodeJ then
        stepE s3 "E_LINE_SELF_LOOP"
          ("lines[" ++ toString i ++ "].id=" ++ line.id.toStr ++
           " has self-loop (nodeI === nodeJ = " ++ line.nodeI.toStr ++ ")")
      else s3
    linesLoop nodes rest (insertSeen seen line.id) (i + 1) s4

/- Frequency sanity loop: NaN / Infinity / non-positive are fatal (else-if
chain); a finite frequency above 30 Hz yields a warning. -/
def freqLoop : List (JNum × JNum) → VState → VState
  | [], s => s
  | p :: rest, s =>
    let modeNum := p.1
    let freq := p.2
    let s2 :=
      if freq.isNaN then
        stepE s "E_FREQ_NAN" ("freqHz[" ++ modeNum.toStr ++ "]=" ++ freq.toStr ++ " is NaN")
      else if !freq.isFinite then
        stepE s "E_FREQ_INFINITY" ("freqHz[" ++ modeNum.toStr ++ "]=" ++ freq.toStr ++ " is Infinity")
      else if freq.jle (JNum.fin 0) then
        stepE s "E_FREQ_NON_POSITIVE" ("freqHz[" ++ modeNum.toStr ++ "]=" ++ freq.toStr ++ " must be > 0")
      else s
    let s3 := if freq.isFinite && freq.jgt (JNum.fin 30) then
        stepW s2 "W_FREQ_HIGH"
          ("freqHz[" ++ modeNum.toStr ++ "]=" ++ freq.toStr ++ " > 30 Hz may reduce visual clarity")
      else s2
    freqLoop rest s3

/- Mode/frequency parity, direction modes → freqHz. -/
def parityLoopModes (freqHz : JMap JNum JNum) : List JNum → VState → VState
  | [], s => s
  | m :: rest, s =>
    let s2 := if !(freqHz.has m) then
        stepE s "E_MODE_FREQ_MISMATCH" ("modes has mode " ++ m.toStr ++ " but freqHz does not")
      else s
    parityLoopModes freqHz rest s2

/- Mode/frequency parity, direction freqHz → modes. -/
def parityLoopFreq (modes : JMap JNum (JMap JNum JNum)) : List JNum → VState → VState
  | [], s => s
  | m :: rest, s =>
    let s2 := if !(modes.has m) then
        stepE s "E_MODE_FREQ_MISMATCH" ("freqHz has mode " ++ m.toStr ++ " but modes does not")
      else s
    parityLoopFreq modes rest s2

/- Inner amplitude loop for one mode: dangling node reference, NaN or
infinite uz; tracks whether every finite amplitude is within EPS of zero. -/
def uzLoop (nodes : JMap JNum NodeRec) (modeNum : JNum) :
    List (JNum × JNum) → Bool → VState → VState × Bool
  | [], az, s => (s, az)
  | p :: rest, az, s =>
    let nodeId := p.1
    let uz := p.2
    let s2 := if !(nodes.has nodeId) then
        stepE s "E_MODE_NODE_UNDEF"
          ("modes[" ++ modeNum.toStr ++ "] references undefined node " ++ nodeId.toStr)
      else s
    let s3 :=
      if uz.isNaN then
        stepE s2 "E_UZ_NAN" ("modes[" ++ modeNum.toStr ++ "][" ++ nodeId.toStr ++ "] uz is NaN")
      else if !uz.isFinite then
        stepE s2 "E_UZ_INFINITY" ("modes[" ++ modeNum.toStr ++ "][" ++ nodeId.toStr ++ "] uz is Infinity")
      else s2
    let az2 := if !uz.isNaN && uz.isFinite && uz.jabs.jgt (JNum.fin EPS) then false else az
    uzLoop nodes modeNum rest az2 s3

/- Outer mode-shape loop, with the all-zero warning per mode. -/
def modesLoop (nodes : JMap JNum NodeRec) :
    List (JNum × JMap JNum JNum) → VState → VState
  | [], s => s
  | p :: rest, s =>
    let r := uzLoop nodes p.1 p.2.entries true s
    let s2 := if r.2 && !(p.2.size = 0) then
        stepW r.1 "W_MODE_ALL_ZERO"
          ("modes[" ++ p.1.toStr ++ "] all uz values are zero (|uz| <= " ++ toString EPS ++ ")")
      else r.1
    modesLoop nodes rest s2

/- Final non-planar warning: node z coordinates not all within EPS of the
first one. -/
def zMixedCheck (nodes : Option (JMap JNum NodeRec)) (s : VState) : VState :=
  match nodes with
  | none => s
  | some nm =>
    if 0 < nm.size then
      match nm.valuesList.map (fun n => n.z) with
      | [] => s
      | z0 :: zrest =>
        if (z0 :: zrest).any (fun z => (z.jsub z0).jabs.jgt (JNum.fin EPS)) then
          stepW s "W_NODE_Z_MIXED" "node z-coordinates are not uniform; floor may not be planar"
        else s
    else s

/- validateFloorData: the full check sequence.  Early `return` statements
of the source are modelled by the `halted` flag, which freezes the report. -/
/- The duplicate-node scan runs under `if (nodes instanceof Map)`. -/
def dupNodeStage (nodes : Option (JMap JNum NodeRec)) (s : VState) : VState :=
  match nodes with
  | some nm => dupNodeLoop nm.entries [] 0 s
  | none => s

/- The per-line checks run under `if (Array.isArray(lines))`. -/
def linesStage (nodes : Option (JMap JNum NodeRec)) (lines : Option (List LineRec))
    (s : VState) : VState :=
  match lines with
  | some ls => linesLoop nodes ls [] 0 s
  | none => s

/- The frequency checks run under `if (freqHz instanceof Map)`. -/
def freqStage (freqHz : Option (JMap JNum JNum)) (s : VState) : VState :=
  match freqHz with
  | some fm => freqLoop fm.entries s
  | none => s

/- The two parity loops run under `if (modes instanceof Map && freqHz instanceof Map)`. -/
def parityStage (modes : Option (JMap JNum (JMap JNum JNum)))
    (freqHz : Option (JMap JNum JNum)) (s : VState) : VState :=
  match modes, freqHz with
  | some mm, some fm => parityLoopFreq mm fm.keysList (parityLoopModes fm mm.keysList s)
  | _, _ => s

/- The mode-shape loop runs under `if (modes instanceof Map && nodes instanceof Map)`. -/
def modesStage (modes : Option (JMap JNum (JMap JNum JNum)))
    (nodes : Option (JMap JNum NodeRec)) (s : VState) : VState :=
  match modes, nodes with
  | some mm, some nm => modesLoop nm mm.entries s
  | _, _ => s

def validateFloorData (inp : VInput) : Report :=
  let s : VState := ⟨⟨[], []⟩, false⟩
  let s := requiredLoop (requiredList inp) s
  let s := haltIfErrors s
  let s := nodesEmptyCheck inp.nodes s
  let s := dupNodeStage inp.nodes s
  let s := linesEmptyCheck inp.lines s
  let s := linesStage inp.nodes inp.lines s
  let s := freqStage inp.freqHz s
  let s := parityStage inp.modes inp.freqHz s
  let s := modesStage inp.modes inp.nodes s
  (zMixedCheck inp.nodes s).report

/- Wrap a parse result for validation. -/
def toVInput (d : FloorData) : VInput :=
  ⟨some d.nodes, some d.lines, some d.freqHz, some d.modes⟩

/- ===== animation.js ===== -/

/- A node as used by the displacement engine.  The engine's claims are
algebraic, so coordinates are exact rationals and ids are integers; the
irrational constant TWO_PI and Math.sin are abstracted as parameters of
getDisplacedZ. -/
structure ANode where
  x : ℚ
  y : ℚ
  z : ℚ
deriving DecidableEq, Repr

/- The dataset slice consumed by the AnimationController constructor. -/
structure FloorDataA where
  nodes : JMap Int ANode
  lines : List (Int × Int)
  freqHz : JMap Int ℚ
  modes : JMap Int (JMap Int ℚ)
deriving DecidableEq, Repr

/- The controller's mutable state plus its cached derived metrics. -/
structure AnimState where
  nodes : JMap Int ANode
  freqHz : JMap Int ℚ
  modes : JMap Int (JMap Int ℚ)
  umaxMap : JMap Int ℚ
  lFloor : ℚ
  aRef : ℚ
  modeList : List Int
  currentMode : Option Int
  scale : ℚ
  speed : ℚ
  time : ℚ
  playing : Bool
deriving DecidableEq, Repr

/- The running minimum of the `_computeFloorMetrics` loop: `none` is the
initial `Infinity`, so the accumulator after the loop is `none` exactly when
the node map is empty. -/
def minStep (m : Option ℚ) (q : ℚ) : Option ℚ :=
  match m with
  | none => some q
  | some p => some (min p q)

def maxStep (m : Option ℚ) (q : ℚ) : Option ℚ :=
  match m with
  | none => some q
  | some p => some (max p q)

def minFold (f : ANode → ℚ) (l : List ANode) : Option ℚ :=
  l.foldl (fun m a => minStep m (f a)) none

def maxFold (f : ANode → ℚ) (l : List ANode) : Option ℚ :=
  l.foldl (fun m a => maxStep m (f a)) none

/- max(maxX - minX, maxY - minY) over the node list.  On an empty node list
the source arithmetic degenerates to -Infinity; that case is unreachable
behind validation (E_NODES_EMPTY) and is mapped to 0 here. -/
def spanOf (l : List ANode) : ℚ :=
  match minFold (fun n => n.x) l, maxFold (fun n => n.x) l,
        minFold (fun n => n.y) l, maxFold (fun n => n.y) l with
  | some mnx, some mxx, some mny, some mxy => max (mxx - mnx) (mxy - mny)
  | _, _, _, _ => 0

/- L_floor with the zero-span substitution `if (this._lFloor === 0) this._lFloor = 1`. -/
def lFloorOf (l : List ANode) : ℚ :=
  if spanOf l = 0 then 1 else spanOf l

/- A_ref = L_floor / 10. -/
def aRefOf (l : List ANode) : ℚ :=
  lFloorOf l / 10

/- Umax_m: maximum |uz| over one mode shape, with 1 substituted when the
maximum is 0. -/
def computeUmax (shape : JMap Int ℚ) : ℚ :=
  let umax := shape.valuesList.foldl (fun m uz => if m < |uz| then |uz| else m) 0
  if umax = 0 then 1 else umax

/- Ascending numeric sort of the available mode numbers
(`Array.from(keys).sort((a, b) => a - b)`). -/
def insertAsc (a : Int) : List Int → List Int
  | [] => [a]
  | b :: rest => if a ≤ b then a :: b :: rest else b :: insertAsc a rest

def sortAsc (l : List Int) : List Int :=
  l.foldr insertAsc []

/- The AnimationController constructor. -/
def initAnim (fd : FloorDataA) : AnimState :=
  let lf := lFloorOf fd.nodes.valuesList
  let ml := sortAsc fd.modes.keysList
  { nodes := fd.nodes
    freqHz := fd.freqHz
    modes := fd.modes
    umaxMap := ⟨fd.modes.entries.map (fun p => (p.1, computeUmax p.2))⟩
    lFloor := lf
    aRef := lf / 10
    modeList := ml
    currentMode := ml.head?
    scale := 1
    speed := 1
    time := 0
    playing := false }

namespace AnimationController

/- setMode: select a mode (unvalidated), rewind to t = 0, stop. -/
def setMode (st : AnimState) (m : Int) : AnimState :=
  { st with currentMode := some m, time := 0, playing := false }

/- play: start only when a mode is selected. -/
def play (st : AnimState) : AnimState :=
  if st.currentMode.isSome then { st with playing := true } else st

/- stop: freeze the current frame. -/
def stop (st : AnimState) : AnimState :=
  { st with playing := false }

/- setScale: clamp into [0.5, 3.0]. -/
def setScale (st : AnimState) (s : ℚ) : AnimState :=
  { st with scale := max (1/2) (min 3 s) }

/- setSpeed: clamp into [0.2, 2.0]. -/
def setSpeed (st : AnimState) (v : ℚ) : AnimState :=
  { st with speed := max (1/5) (min 2 v) }

/- update: advance time only while playing. -/
def update (st : AnimState) (deltaTime : ℚ) : AnimState :=
  if st.playing then { st with time := st.time + deltaTime * st.speed } else st

/- getDisplacedZ, parameterized by the two transcendental ingredients
TWO_PI and Math.sin.  The umaxMap lookup has no fallback in the source; the
constructor fills umaxMap for exactly the keys of modes, so the `getD 0`
default is never consulted for engine-built states. -/
def getDisplacedZ (twoPi : ℚ) (sinQ : ℚ → ℚ) (st : AnimState) (nodeId : Int) : ℚ :=
  match st.nodes.get? nodeId with
  | none => 0
  | some node =>
    match st.currentMode with
    | none => node.z
    | some m =>
      match st.modes.get? m with
      | none => node.z
      | some modeShape =>
        let uz := (modeShape.get? nodeId).getD 0
        let umaxM := (st.umaxMap.get? m).getD 0
        let freqM := (st.freqHz.get? m).getD 0
        let u := st.scale * st.aRef * (uz / umaxM) * sinQ (twoPi * freqM * st.time)
        node.z + u

/- getFreqHz with an explicit mode number (the omitted-argument form uses
currentMode). -/
def getFreqHz (st : AnimState) (modeNum : Option Int) : ℚ :=
  let m := match modeNum with
    | none => st.currentMode
    | some k => some k
  match m with
  | none => 0
  | some k => (st.freqHz.get? k).getD 0

end AnimationController

/- All states reachable from the constructor through the controller's
operations. -/
inductive Reachable (fd : FloorDataA) : AnimState → Prop where
  | rInit : Reachable fd (initAnim fd)
  | rSetMode {st : AnimState} (h : Reachable fd st) (m : Int) :
      Reachable fd (AnimationController.setMode st m)
  | rPlay {st : AnimState} (h : Reachable fd st) :
      Reachable fd (AnimationController.play st)
  | rStop {st : AnimState} (h : Reachable fd st) :
      Reachable fd (AnimationController.stop st)
  | rSetScale {st : AnimState} (h : Reachable fd st) (s : ℚ) :
      Reachable fd (AnimationController.setScale st s)
  | rSetSpeed {st : AnimState} (h : Reachable fd st) (v : ℚ) :
      Reachable fd (AnimationController.setSpeed st v)
  | rUpdate {st : AnimState} (h : Reachable fd st) (d : ℚ) :
      Reachable fd (AnimationController.update st d)


/- ===== auxiliary predicates and concrete datasets used by the
development ===== -/

/- True when the currently selected mode either resolves no mode shape or
has a precomputed Umax entry; the AnimationController constructor
establishes this for every state it builds (umaxMap is filled for exactly
the keys of modes), and JavaScript would produce NaN outside it. -/
def umaxReady (st : AnimState) : Bool :=
  match st.currentMode with
  | none => true
  | some m =>
    match st.modes.get? m with
    | none => true
    | some _ => (st.umaxMap.get? m).isSome

/- Does an amplitude list mention a node id? -/
def anyKeyEq : List (JNum × JNum) → JNum → Bool
  | [], _ => false
  | p :: rest, id => if p.1 = id then true else anyKeyEq rest id

/- Does the raw `modes` object give an amplitude for (mode m, node id) in
any of its entries for m? -/
def modeSourceMentions : List (JNum × Option (List (JNum × JNum))) → JNum → JNum → Bool
  | [], _, _ => false
  | p :: rest, m, id =>
    (if p.1 = m then anyKeyEq (p.2.getD []) id else false) || modeSourceMentions rest m id

/- Last value bound to a mode key in the raw `modes` list (Map.set is
last-write-wins). -/
def lastModeVal : List (JNum × Option (List (JNum × JNum))) → JNum →
    Option (Option (List (JNum × JNum)))
  | [], _ => none
  | p :: rest, m =>
    match lastModeVal rest m with
    | some r => some r
    | none => if p.1 = m then some p.2 else none

/- Translation of a node in the two planar axes. -/
def translateNode (c d : ℚ) (n : ANode) : ANode :=
  ⟨n.x + c, n.y + d, n.z⟩

/- A dataset whose nodes array repeats id 1 with different coordinates. -/
def rawDupNodes : RawFloorData :=
  ⟨some [⟨JNum.fin 1, some (JNum.fin 0), some (JNum.fin 0), some (JNum.fin 0)⟩,
         ⟨JNum.fin 1, some (JNum.fin 5), some (JNum.fin 6), some (JNum.fin 7)⟩],
   some [], some [], some []⟩

/- A dataset whose mode 1 mentions only node 2, leaving node 1 to the
defaulting rule. -/
def rawDefaulting : RawFloorData :=
  ⟨some [⟨JNum.fin 1, some (JNum.fin 0), some (JNum.fin 0), some (JNum.fin 0)⟩],
   some [], some [],
   some [(JNum.fin 1, some [(JNum.fin 2, JNum.fin 9)])]⟩

/- A validator input with 101 finite frequencies above 30 Hz. -/
def freqEntriesHigh : List (JNum × JNum) :=
  (List.range 101).map (fun k => (JNum.fin k, JNum.fin 31))

def inpManyWarnings : VInput :=
  ⟨some ⟨[(JNum.fin 1, ⟨JNum.fin 1, JNum.fin 0, JNum.fin 0, JNum.fin 0⟩)]⟩,
   some [], some ⟨freqEntriesHigh⟩, some ⟨[]⟩⟩

/- Small animation datasets for concrete instantiations. -/
def fdOneNode : FloorDataA :=
  ⟨⟨[(1, ⟨0, 0, 5⟩)]⟩, [], ⟨[]⟩, ⟨[]⟩⟩

def fdOneMode : FloorDataA :=
  ⟨⟨[(1, ⟨0, 0, 5⟩)]⟩, [], ⟨[(1, 2)]⟩, ⟨[(1, ⟨[(1, 3)]⟩)]⟩⟩

def fdPerm1 : FloorDataA :=
  ⟨⟨[(1, ⟨0, 0, 0⟩), (2, ⟨6, 4, 0⟩)]⟩, [], ⟨[]⟩, ⟨[]⟩⟩

def fdPerm2 : FloorDataA :=
  ⟨⟨[(2, ⟨6, 4, 0⟩), (1, ⟨0, 0, 0⟩)]⟩, [], ⟨[]⟩, ⟨[]⟩⟩

def fdShift : FloorDataA :=
  ⟨⟨[(1, ⟨1, 2, 0⟩), (2, ⟨7, 6, 0⟩)]⟩, [], ⟨[]⟩, ⟨[]⟩⟩

/- ===== theorems ===== -/

/-- C6: for every playback state (including a playing one) and every mode
number m, setMode m sets currentMode to m, resets time to 0 and forces
playing to false; and no other operation resets time: play, stop, setScale
and setSpeed leave time unchanged, and update only adds deltaTime * speed
to it (while playing), never resetting it. -/
theorem setMode_resets_time_and_is_the_only_reset
    (st : AnimState) (m : Int) (s v d : ℚ) :
    (AnimationController.setMode st m).currentMode = some m
    ∧ (AnimationController.setMode st m).time = 0
    ∧ (AnimationController.setMode st m).playing = false
    ∧ (AnimationController.play st).time = st.time
    ∧ (AnimationController.stop st).time = st.time
    ∧ (AnimationController.setScale st s).time = st.time
    ∧ (AnimationController.setSpeed st v).time = st.time
    ∧ (AnimationController.update st d).time =
        (if st.playing then st.time + d * st.speed else st.time) := by
  refine ⟨rfl, rfl, rfl, ?_, rfl, rfl, rfl, ?_⟩
  · unfold AnimationController.play
    by_cases h : st.currentMode.isSome <;> simp [h]
  · unfold AnimationController.update
    by_cases h : st.playing <;> simp [h]

/-- C8: stop only flips playing to false, leaving time and every other
state field unchanged, and getDisplacedZ is a pure read of the state
(embedded as a function), so after stop any number of getDisplacedZ reads
for any node, with no intervening update, return the same value as each
other and as a read of the pre-stop state. -/
theorem stop_holds_frame (twoPi : ℚ) (sinQ : ℚ → ℚ) (st : AnimState) (nodeId : Int) :
    (AnimationController.stop st).playing = false
    ∧ (AnimationController.stop st).time = st.time
    ∧ (AnimationController.stop st).currentMode = st.currentMode
    ∧ (AnimationController.stop st).scale = st.scale
    ∧ (AnimationController.stop st).speed = st.speed
    ∧ (AnimationController.stop st).nodes = st.nodes
    ∧ (AnimationController.stop st).freqHz = st.freqHz
    ∧ (AnimationController.stop st).modes = st.modes
    ∧ (AnimationController.stop st).umaxMap = st.umaxMap
    ∧ (AnimationController.stop st).lFloor = st.lFloor
    ∧ (AnimationController.stop st).aRef = st.aRef
    ∧ AnimationController.getDisplacedZ twoPi sinQ (AnimationController.stop st) nodeId
        = AnimationController.getDisplacedZ twoPi sinQ st nodeId := by
  refine ⟨rfl, rfl, rfl, rfl, rfl, rfl, rfl, rfl, rfl, rfl, rfl, rfl⟩

/-- C2: for every node present in the dataset and every scale, selected
mode and frequency table, getDisplacedZ at time = 0 returns exactly the
node's undisplaced elevation z, for any sine function vanishing at 0
(sin(0) = 0); umaxReady records the constructor invariant that the selected
mode's Umax entry exists. -/
theorem displacedZ_at_time_zero (twoPi : ℚ) (sinQ : ℚ → ℚ) (st : AnimState)
    (nodeId : Int) (node : ANode)
    (hsin : sinQ 0 = 0) (ht : st.time = 0)
    (hn : st.nodes.get? nodeId = some node)
    (_hu : umaxReady st = true) :
    AnimationController.getDisplacedZ twoPi sinQ st nodeId = node.z := by
  cases hcm : st.currentMode with
  | none => simp [AnimationController.getDisplacedZ, hn, hcm]
  | some m =>
    cases hms : st.modes.get? m with
    | none => simp [AnimationController.getDisplacedZ, hn, hcm, hms]
    | some shape =>
      simp [AnimationController.getDisplacedZ, hn, hcm, hms, ht, mul_zero, hsin, add_zero]

/-- C2 witness: the theorem applied to the engine built from a concrete
one-node, one-mode dataset, with the zero function as sine. -/
theorem displacedZ_at_time_zero_witness :
    (fun _ : ℚ => (0 : ℚ)) 0 = 0
    ∧ (initAnim fdOneMode).time = 0
    ∧ (initAnim fdOneMode).nodes.get? 1 = some ⟨0, 0, 5⟩
    ∧ umaxReady (initAnim fdOneMode) = true
    ∧ AnimationController.getDisplacedZ 0 (fun _ => 0) (initAnim fdOneMode) 1
        = (⟨0, 0, 5⟩ : ANode).z :=
  ⟨rfl, by decide, by decide, by decide,
   displacedZ_at_time_zero 0 (fun _ => 0) (initAnim fdOneMode) 1 ⟨0, 0, 5⟩
     rfl (by decide) (by decide) (by decide)⟩

/-- C9: for every node present in the nodes mapping, if the currently
selected mode number has no entry in the modes mapping then getDisplacedZ
returns the node's undisplaced elevation z (no exception, no NaN), even
though setMode accepts any mode number without validating it. -/
theorem displacedZ_unknown_mode (twoPi : ℚ) (sinQ : ℚ → ℚ) (st : AnimState)
    (nodeId : Int) (node : ANode) (m : Int)
    (hn : st.nodes.get? nodeId = some node)
    (hcm : st.currentMode = some m)
    (hms : st.modes.get? m = none) :
    AnimationController.getDisplacedZ twoPi sinQ st nodeId = node.z
    ∧ ∀ k : Int, (AnimationController.setMode st k).currentMode = some k := by
  refine ⟨?_, fun k => rfl⟩
  simp [AnimationController.getDisplacedZ, hn, hcm, hms]

/-- C9 witness: the theorem applied to a state where setMode selected mode
7, which has no shape in the (empty) modes map. -/
theorem displacedZ_unknown_mode_witness :
    (AnimationController.setMode (initAnim fdOneNode) 7).nodes.get? 1 = some ⟨0, 0, 5⟩
    ∧ (AnimationController.setMode (initAnim fdOneNode) 7).currentMode = some 7
    ∧ (AnimationController.setMode (initAnim fdOneNode) 7).modes.get? 7 = none
    ∧ AnimationController.getDisplacedZ 0 (fun _ => 0)
        (AnimationController.setMode (initAnim fdOneNode) 7) 1 = (⟨0, 0, 5⟩ : ANode).z :=
  ⟨by decide, by decide, by decide,
   (displacedZ_unknown_mode 0 (fun _ => 0)
     (AnimationController.setMode (initAnim fdOneNode) 7) 1 ⟨0, 0, 5⟩ 7
     (by decide) (by decide) (by decide)).1⟩

/-- C7: in every state reachable from construction through the playback
operations, scale lies in [0.5, 3.0] and speed lies in [0.2, 2.0]; setScale
clamps its argument into [0.5, 3.0] and setSpeed into [0.2, 2.0] before
storing, and in particular setScale 10 stores 3.0 and setSpeed 0 stores
0.2. -/
theorem scale_speed_clamped (fd : FloorDataA) (st : AnimState)
    (h : Reachable fd st) :
    ((1/2 : ℚ) ≤ st.scale ∧ st.scale ≤ 3 ∧ (1/5 : ℚ) ≤ st.speed ∧ st.speed ≤ 2)
    ∧ (∀ s : ℚ, (1/2 : ℚ) ≤ (AnimationController.setScale st s).scale
        ∧ (AnimationController.setScale st s).scale ≤ 3)
    ∧ (∀ v : ℚ, (1/5 : ℚ) ≤ (AnimationController.setSpeed st v).speed
        ∧ (AnimationController.setSpeed st v).speed ≤ 2)
    ∧ (AnimationController.setScale st 10).scale = 3
    ∧ (AnimationController.setSpeed st 0).speed = 1/5 := by
  have hscale : ∀ (s : ℚ), (1/2 : ℚ) ≤ max (1/2) (min 3 s) ∧ max (1/2 : ℚ) (min 3 s) ≤ 3 := by
    intro s
    refine ⟨le_max_left _ _, max_le (by norm_num) (min_le_left _ _)⟩
  have hspeed : ∀ (v : ℚ), (1/5 : ℚ) ≤ max (1/5) (min 2 v) ∧ max (1/5 : ℚ) (min 2 v) ≤ 2 := by
    intro v
    refine ⟨le_max_left _ _, max_le (by norm_num) (min_le_left _ _)⟩
  refine ⟨?_, fun s => hscale s, fun v => hspeed v, ?_, ?_⟩
  · induction h with
    | rInit => refine ⟨by norm_num [initAnim], by norm_num [initAnim],
        by norm_num [initAnim], by norm_num [initAnim]⟩
    | rSetMode h m ih => exact ih
    | rPlay h ih =>
      unfold AnimationController.play
      by_cases hc : (‹AnimState›).currentMode.isSome <;> simp_all
    | rStop h ih => exact ih
    | rSetScale h s ih =>
      exact ⟨(hscale s).1, (hscale s).2, ih.2.2.1, ih.2.2.2⟩
    | rSetSpeed h v ih =>
      exact ⟨ih.1, ih.2.1, (hspeed v).1, (hspeed v).2⟩
    | rUpdate h d ih =>
      unfold AnimationController.update
      by_cases hc : (‹AnimState›).playing <;> simp_all
  · show max (1/2 : ℚ) (min 3 10) = 3
    norm_num [min_def, max_def]
  · show max (1/5 : ℚ) (min 2 0) = 1/5
    norm_num [min_def, max_def]

/-- C7 witness: the theorem applied to the freshly constructed controller
for a concrete one-node dataset. -/
theorem scale_speed_clamped_witness :
    Reachable fdOneNode (initAnim fdOneNode)
    ∧ ((1/2 : ℚ) ≤ (initAnim fdOneNode).scale ∧ (initAnim fdOneNode).scale ≤ 3
        ∧ (1/5 : ℚ) ≤ (initAnim fdOneNode).speed ∧ (initAnim fdOneNode).speed ≤ 2)
    ∧ (AnimationController.setScale (initAnim fdOneNode) 10).scale = 3
    ∧ (AnimationController.setSpeed (initAnim fdOneNode) 0).speed = 1/5 :=
  ⟨Reachable.rInit,
   (scale_speed_clamped fdOneNode (initAnim fdOneNode) Reachable.rInit).1,
   (scale_speed_clamped fdOneNode (initAnim fdOneNode) Reachable.rInit).2.2.2.1,
   (scale_speed_clamped fdOneNode (initAnim fdOneNode) Reachable.rInit).2.2.2.2⟩

/- Order-invariance machinery for the min/max accumulator loops. -/

theorem minStep_rightComm (m : Option ℚ) (p q : ℚ) :
    minStep (minStep m p) q = minStep (minStep m q) p := by
  cases m with
  | none => simp [minStep, min_comm]
  | some r => simp [minStep, min_right_comm]

theorem maxStep_rightComm (m : Option ℚ) (p q : ℚ) :
    maxStep (maxStep m p) q = maxStep (maxStep m q) p := by
  cases m with
  | none => simp [maxStep, max_comm]
  | some r => simp [maxStep, sup_right_comm]

theorem foldl_perm_of_rightComm {α β : Type} {f : β → α → β}
    (hf : ∀ b a1 a2, f (f b a1) a2 = f (f b a2) a1)
    {l1 l2 : List α} (h : l1.Perm l2) : ∀ b : β, l1.foldl f b = l2.foldl f b := by
  induction h with
  | nil => intro b; rfl
  | cons x _ ih => intro b; simp only [List.foldl_cons]; exact ih _
  | swap x y l => intro b; simp only [List.foldl_cons]; rw [hf]
  | trans _ _ ih1 ih2 => intro b; rw [ih1 b, ih2 b]

theorem minFold_perm (g : ANode → ℚ) {l1 l2 : List ANode} (h : l1.Perm l2) :
    minFold g l1 = minFold g l2 :=
  foldl_perm_of_rightComm (fun b a1 a2 => minStep_rightComm b (g a1) (g a2)) h none

theorem maxFold_perm (g : ANode → ℚ) {l1 l2 : List ANode} (h : l1.Perm l2) :
    maxFold g l1 = maxFold g l2 :=
  foldl_perm_of_rightComm (fun b a1 a2 => maxStep_rightComm b (g a1) (g a2)) h none

theorem spanOf_perm {l1 l2 : List ANode} (h : l1.Perm l2) : spanOf l1 = spanOf l2 := by
  unfold spanOf
  rw [minFold_perm (fun n => n.x) h, maxFold_perm (fun n => n.x) h,
      minFold_perm (fun n => n.y) h, maxFold_perm (fun n => n.y) h]

/- Translation machinery. -/

theorem foldl_minStep_shift (g : ANode → ℚ) (c d e : ℚ)
    (hg : ∀ n, g (translateNode c d n) = g n + e) :
    ∀ (l : List ANode) (acc : Option ℚ),
      (l.map (translateNode c d)).foldl (fun m a => minStep m (g a)) (acc.map (· + e))
        = (l.foldl (fun m a => minStep m (g a)) acc).map (· + e) := by
  intro l
  induction l with
  | nil => intro acc; rfl
  | cons n rest ih =>
    intro acc
    have hstep : minStep (acc.map (· + e)) (g (translateNode c d n))
        = (minStep acc (g n)).map (· + e) := by
      cases acc with
      | none => simp [minStep, hg]
      | some p => simp [minStep, hg, min_add_add_right]
    simp only [List.map_cons, List.foldl_cons, hstep]
    exact ih (minStep acc (g n))

theorem foldl_maxStep_shift (g : ANode → ℚ) (c d e : ℚ)
    (hg : ∀ n, g (translateNode c d n) = g n + e) :
    ∀ (l : List ANode) (acc : Option ℚ),
      (l.map (translateNode c d)).foldl (fun m a => maxStep m (g a)) (acc.map (· + e))
        = (l.foldl (fun m a => maxStep m (g a)) acc).map (· + e) := by
  intro l
  induction l with
  | nil => intro acc; rfl
  | cons n rest ih =>
    intro acc
    have hstep : maxStep (acc.map (· + e)) (g (translateNode c d n))
        = (maxStep acc (g n)).map (· + e) := by
      cases acc with
      | none => simp [maxStep, hg]
      | some p => simp [maxStep, hg, max_add_add_right]
    simp only [List.map_cons, List.foldl_cons, hstep]
    exact ih (maxStep acc (g n))

theorem minFold_translate (g : ANode → ℚ) (c d e : ℚ)
    (hg : ∀ n, g (translateNode c d n) = g n + e) (l : List ANode) :
    minFold g (l.map (translateNode c d)) = (minFold g l).map (· + e) :=
  foldl_minStep_shift g c d e hg l none

theorem maxFold_translate (g : ANode → ℚ) (c d e : ℚ)
    (hg : ∀ n, g (translateNode c d n) = g n + e) (l : List ANode) :
    maxFold g (l.map (translateNode c d)) = (maxFold g l).map (· + e) :=
  foldl_maxStep_shift g c d e hg l none

theorem spanOf_translate (c d : ℚ) (l : List ANode) :
    spanOf (l.map (translateNode c d)) = spanOf l := by
  unfold spanOf
  rw [minFold_translate (fun n => n.x) c d c (fun n => rfl) l,
      maxFold_translate (fun n => n.x) c d c (fun n => rfl) l,
      minFold_translate (fun n => n.y) c d d (fun n => rfl) l,
      maxFold_translate (fun n => n.y) c d d (fun n => rfl) l]
  cases minFold (fun n => n.x) l <;> cases maxFold (fun n => n.x) l <;>
    cases minFold (fun n => n.y) l <;> cases maxFold (fun n => n.y) l <;>
    simp [add_sub_add_right_eq_sub]

theorem lFloorOf_perm {l1 l2 : List ANode} (h : l1.Perm l2) : lFloorOf l1 = lFloorOf l2 := by
  unfold lFloorOf
  rw [spanOf_perm h]

theorem lFloorOf_translate (c d : ℚ) (l : List ANode) :
    lFloorOf (l.map (translateNode c d)) = lFloorOf l := by
  unfold lFloorOf
  rw [spanOf_translate c d l]

/-- C5: the derived metrics L_floor and A_ref computed by the engine
constructor are unchanged when the nodes are inserted in a different order
and when a constant offset is added to all node x and y coordinates; and
when the computed span is exactly zero, L_floor = 1 is substituted. -/
theorem floor_metrics_invariant (fd1 fd2 fd3 : FloorDataA) (c d : ℚ)
    (hperm : fd2.nodes.valuesList.Perm fd1.nodes.valuesList)
    (htr : fd3.nodes.valuesList = fd1.nodes.valuesList.map (translateNode c d)) :
    ((initAnim fd2).lFloor = (initAnim fd1).lFloor
      ∧ (initAnim fd2).aRef = (initAnim fd1).aRef)
    ∧ ((initAnim fd3).lFloor = (initAnim fd1).lFloor
      ∧ (initAnim fd3).aRef = (initAnim fd1).aRef)
    ∧ (spanOf fd1.nodes.valuesList = 0 → (initAnim fd1).lFloor = 1) := by
  have h2 : lFloorOf fd2.nodes.valuesList = lFloorOf fd1.nodes.valuesList :=
    lFloorOf_perm hperm
  have h3 : lFloorOf fd3.nodes.valuesList = lFloorOf fd1.nodes.valuesList := by
    rw [htr, lFloorOf_translate]
  refine ⟨⟨?_, ?_⟩, ⟨?_, ?_⟩, ?_⟩
  · simpa [initAnim] using h2
  · simp only [initAnim]
    rw [h2]
  · simpa [initAnim] using h3
  · simp only [initAnim]
    rw [h3]
  · intro hz
    simp [initAnim, lFloorOf, hz]

/-- C5 witness: the theorem applied to a two-node dataset, its
reversed-order copy, and its translate by (1, 2). -/
theorem floor_metrics_invariant_witness :
    fdPerm2.nodes.valuesList.Perm fdPerm1.nodes.valuesList
    ∧ fdShift.nodes.valuesList = fdPerm1.nodes.valuesList.map (translateNode 1 2)
    ∧ (initAnim fdPerm2).lFloor = (initAnim fdPerm1).lFloor
    ∧ (initAnim fdShift).aRef = (initAnim fdPerm1).aRef :=
  ⟨by decide, by decide,
   ((floor_metrics_invariant fdPerm1 fdPerm2 fdShift 1 2
      (by decide) (by decide)).1).1,
   ((floor_metrics_invariant fdPerm1 fdPerm2 fdShift 1 2
      (by decide) (by decide)).2).1.2⟩

/- Association-map lemmas for Map.set / first-match lookup. -/

theorem lookupFirst_setEntries_self {K V : Type} [DecidableEq K]
    (l : List (K × V)) (k : K) (v : V) :
    lookupFirst (setEntries l k v) k = some v := by
  induction l with
  | nil => simp [setEntries, lookupFirst]
  | cons p rest ih =>
    by_cases h : p.1 = k
    · simp [setEntries, h, lookupFirst]
    · simp [setEntries, h, lookupFirst, ih]

theorem lookupFirst_setEntries_other {K V : Type} [DecidableEq K]
    (l : List (K × V)) (k k2 : K) (v : V) (h : k2 ≠ k) :
    lookupFirst (setEntries l k v) k2 = lookupFirst l k2 := by
  have hk2 : ¬(k = k2) := fun he => h he.symm
  induction l with
  | nil =>
    simp only [setEntries, lookupFirst]
    rw [if_neg hk2]
  | cons p rest ih =>
    by_cases hp : p.1 = k
    · have hp2 : ¬(p.1 = k2) := fun he => hk2 (hp ▸ he)
      simp only [setEntries, if_pos hp, lookupFirst]
      rw [if_neg hk2, if_neg hp2]
    · simp only [setEntries, if_neg hp, lookupFirst]
      rw [ih]

theorem lookupFirst_mem_keys {K V : Type} [DecidableEq K]
    (l : List (K × V)) (k : K) (v : V) (h : lookupFirst l k = some v) :
    k ∈ l.map Prod.fst := by
  induction l with
  | nil => simp [lookupFirst] at h
  | cons p rest ih =>
    by_cases hp : p.1 = k
    · simp [hp]
    · simp only [lookupFirst, hp, if_false] at h
      simp [ih h]

/- The uz = 0.0 initialization pass keeps a zero entry in place... -/
theorem zeroFold_preserve (l : List (JNum × NodeRec)) :
    ∀ (acc : JMap JNum JNum) (id : JNum), acc.get? id = some (JNum.fin 0) →
      (l.foldl (fun acc p => acc.set p.1 (JNum.fin 0)) acc).get? id = some (JNum.fin 0) := by
  induction l with
  | nil => intro acc id h; exact h
  | cons p rest ih =>
    intro acc id h
    simp only [List.foldl_cons]
    refine ih _ id ?_
    by_cases hp : p.1 = id
    · subst hp
      exact lookupFirst_setEntries_self acc.entries p.1 (JNum.fin 0)
    · show lookupFirst (setEntries acc.entries p.1 (JNum.fin 0)) id = some (JNum.fin 0)
      rw [lookupFirst_setEntries_other acc.entries p.1 id (JNum.fin 0) (fun he => hp he.symm)]
      exact h

/- ...and creates it for every key of the node map. -/
theorem zeroFold_mem (l : List (JNum × NodeRec)) :
    ∀ (acc : JMap JNum JNum) (id : JNum), id ∈ l.map Prod.fst →
      (l.foldl (fun acc p => acc.set p.1 (JNum.fin 0)) acc).get? id = some (JNum.fin 0) := by
  induction l with
  | nil => intro acc id h; simp at h
  | cons p rest ih =>
    intro acc id h
    simp only [List.foldl_cons]
    by_cases hp : p.1 = id
    · subst hp
      refine zeroFold_preserve rest _ p.1 ?_
      exact lookupFirst_setEntries_self acc.entries p.1 (JNum.fin 0)
    · refine ih _ id ?_
      rcases List.mem_map.mp h with ⟨q, hq, hfst⟩
      rcases List.mem_cons.mp hq with hq1 | hq2
      · exact absurd (hq1 ▸ hfst) hp
      · exact List.mem_map.mpr ⟨q, hq2, hfst⟩

/- The overwrite pass leaves ids it never mentions untouched. -/
theorem overwriteFold_skip (entries : List (JNum × JNum)) :
    ∀ (acc : JMap JNum JNum) (id : JNum), anyKeyEq entries id = false →
      (entries.foldl (fun acc p => acc.set p.1 p.2) acc).get? id = acc.get? id := by
  induction entries with
  | nil => intro acc id _; rfl
  | cons p rest ih =>
    intro acc id h
    have hp : ¬(p.1 = id) := by
      intro he
      simp [anyKeyEq, he] at h
    have hrest : anyKeyEq rest id = false := by
      simpa [anyKeyEq, hp] using h
    simp only [List.foldl_cons]
    rw [ih _ id hrest]
    show lookupFirst (setEntries acc.entries p.1 p.2) id = lookupFirst acc.entries id
    exact lookupFirst_setEntries_other acc.entries p.1 id p.2 (fun he => hp he.symm)

/- buildUzMap yields uz = 0.0 for any node id of the dataset that the
source amplitudes never mention. -/
theorem buildUzMap_default (nodes : JMap JNum NodeRec)
    (mv : Option (List (JNum × JNum))) (id : JNum)
    (hid : nodes.has id = true) (hsrc : anyKeyEq (mv.getD []) id = false) :
    (buildUzMap nodes mv).get? id = some (JNum.fin 0) := by
  have hmem : id ∈ nodes.entries.map Prod.fst := by
    rcases Option.isSome_iff_exists.mp hid with ⟨v, hv⟩
    exact lookupFirst_mem_keys nodes.entries id v hv
  have hbase : (nodes.entries.foldl (fun acc p => acc.set p.1 (JNum.fin 0))
      (JMap.empty : JMap JNum JNum)).get? id = some (JNum.fin 0) :=
    zeroFold_mem nodes.entries JMap.empty id hmem
  cases mv with
  | none => exact hbase
  | some entries =>
    have := overwriteFold_skip entries
      (nodes.entries.foldl (fun acc p => acc.set p.1 (JNum.fin 0)) JMap.empty) id
      (by simpa using hsrc)
    simpa [buildUzMap, this] using hbase

/- The modes fold realizes last-write-wins per mode key. -/
theorem modesFold_get (nodes : JMap JNum NodeRec)
    (l : List (JNum × Option (List (JNum × JNum)))) :
    ∀ (acc : JMap JNum (JMap JNum JNum)) (m : JNum),
      (l.foldl (fun a p => a.set p.1 (buildUzMap nodes p.2)) acc).get? m =
        (match lastModeVal l m with
         | some mv => some (buildUzMap nodes mv)
         | none => acc.get? m) := by
  induction l with
  | nil => intro acc m; rfl
  | cons p rest ih =>
    intro acc m
    simp only [List.foldl_cons, lastModeVal]
    rw [ih]
    cases hrest : lastModeVal rest m with
    | some r => rfl
    | none =>
      by_cases hp : p.1 = m
      · subst hp
        simp only [if_pos rfl]
        exact lookupFirst_setEntries_self acc.entries p.1 (buildUzMap nodes p.2)
      · simp only [if_neg hp]
        exact lookupFirst_setEntries_other acc.entries p.1 m (buildUzMap nodes p.2)
          (fun he => hp he.symm)

/- If the source never gives an amplitude for (m, id), neither does the
last modes entry bound to m. -/
theorem lastModeVal_not_mentions (l : List (JNum × Option (List (JNum × JNum))))
    (m id : JNum) (mv : Option (List (JNum × JNum)))
    (hsrc : modeSourceMentions l m id = false) (hlast : lastModeVal l m = some mv) :
    anyKeyEq (mv.getD []) id = false := by
  induction l with
  | nil => simp [lastModeVal] at hlast
  | cons p rest ih =>
    have hsplit : (p.1 = m → anyKeyEq (p.2.getD []) id = false)
        ∧ modeSourceMentions rest m id = false := by
      simpa [modeSourceMentions] using hsrc
    simp only [lastModeVal] at hlast
    cases hrest : lastModeVal rest m with
    | some r =>
      rw [hrest] at hlast
      exact ih hsplit.2 (hrest.trans (by injection hlast with h; rw [h]))
    | none =>
      rw [hrest] at hlast
      by_cases hp : p.1 = m
      · rw [if_pos hp] at hlast
        injection hlast with h
        rw [← h]
        exact hsplit.1 hp
      · rw [if_neg hp] at hlast
        exact absurd hlast (by simp)

/-- C4: for every mode defined in the source and every node id present in
the canonical nodes mapping, if the source gives no amplitude for that
(node, mode) pair then normalization produces the amplitude entry
uz = 0.0 for it, so every node has a defined amplitude for every mode by
construction. -/
theorem mode_amplitude_defaults (raw : RawFloorData) (m : JNum)
    (uzMap : JMap JNum JNum) (id : JNum)
    (hm : (parseFloorData raw).modes.get? m = some uzMap)
    (hid : (parseFloorData raw).nodes.has id = true)
    (hsrc : modeSourceMentions (raw.modes.getD []) m id = false) :
    uzMap.get? id = some (JNum.fin 0) := by
  simp only [parseFloorData] at hm hid
  rw [modesFold_get] at hm
  cases hlast : lastModeVal (raw.modes.getD []) m with
  | none =>
    rw [hlast] at hm
    exact absurd hm (by simp [JMap.get?, JMap.empty, lookupFirst])
  | some mv =>
    rw [hlast] at hm
    have huz : uzMap = buildUzMap (buildNodesLoop (raw.nodes.getD []) JMap.empty JMap.empty).1 mv := by
      injection hm with h
      exact h.symm
    rw [huz]
    exact buildUzMap_default _ mv id hid (lastModeVal_not_mentions _ m id mv hsrc hlast)

/-- C4 witness: the theorem applied to a dataset whose single mode only
mentions node 2, with node 1 picking up the 0.0 default. -/
theorem mode_amplitude_defaults_witness :
    (parseFloorData rawDefaulting).modes.get? (JNum.fin 1)
        = some ⟨[(JNum.fin 1, JNum.fin 0), (JNum.fin 2, JNum.fin 9)]⟩
    ∧ (parseFloorData rawDefaulting).nodes.has (JNum.fin 1) = true
    ∧ modeSourceMentions (rawDefaulting.modes.getD []) (JNum.fin 1) (JNum.fin 1) = false
    ∧ (JMap.get? ⟨[(JNum.fin 1, JNum.fin 0), (JNum.fin 2, JNum.fin 9)]⟩ (JNum.fin 1))
        = some (JNum.fin 0) :=
  ⟨by decide, by decide, by decide,
   mode_amplitude_defaults rawDefaulting (JNum.fin 1)
     ⟨[(JNum.fin 1, JNum.fin 0), (JNum.fin 2, JNum.fin 9)]⟩ (JNum.fin 1)
     (by decide) (by decide) (by decide)⟩

/- ===== the 100-entry error cap (C3) ===== -/

theorem pushError_len (l : List Entry) (c m : String) (h : l.length ≤ MAX_ERRORS) :
    (pushError l c m).1.length ≤ MAX_ERRORS := by
  unfold pushError
  by_cases hc : MAX_ERRORS ≤ l.length
  · simp only [hc, if_true]
    exact h
  · simp only [hc, if_false]
    simp only [List.length_append, List.length_cons, List.length_nil]
    omega

theorem stepE_le (s : VState) (c m : String) (h : s.report.errors.length ≤ MAX_ERRORS) :
    (stepE s c m).report.errors.length ≤ MAX_ERRORS := by
  unfold stepE
  by_cases hh : s.halted
  · simpa [hh] using h
  · simpa [hh] using pushError_len s.report.errors c m h

theorem stepW_errors (s : VState) (c m : String) :
    (stepW s c m).report.errors = s.report.errors := by
  unfold stepW
  by_cases hh : s.halted <;> simp [hh]

theorem requiredLoop_le (l : List (String × Bool)) :
    ∀ s : VState, s.report.errors.length ≤ MAX_ERRORS →
      (requiredLoop l s).report.errors.length ≤ MAX_ERRORS := by
  induction l with
  | nil => intro s h; exact h
  | cons kv rest ih =>
    intro s h
    simp only [requiredLoop]
    by_cases hk : kv.2
    · simp only [hk, if_true]
      exact ih s h
    · simp only [hk, if_false]
      exact ih _ (stepE_le s _ _ h)

theorem haltIfErrors_errors (s : VState) :
    (haltIfErrors s).report.errors = s.report.errors := by
  unfold haltIfErrors
  by_cases hh : s.halted
  · simp [hh]
  · by_cases he : 0 < s.report.errors.length <;> simp [hh, he]

theorem nodesEmptyCheck_le (nodes : Option (JMap JNum NodeRec)) (s : VState)
    (h : s.report.errors.length ≤ MAX_ERRORS) :
    (nodesEmptyCheck nodes s).report.errors.length ≤ MAX_ERRORS := by
  unfold nodesEmptyCheck
  cases nodes with
  | none => exact stepE_le s _ _ h
  | some nm =>
    by_cases hz : nm.size = 0
    · simp only [hz, if_pos rfl]
      exact stepE_le s _ _ h
    · simpa [hz] using h

theorem dupNodeLoop_le (entries : List (JNum × NodeRec)) :
    ∀ (seen : List JNum) (idx : Nat) (s : VState), s.report.errors.length ≤ MAX_ERRORS →
      (dupNodeLoop entries seen idx s).report.errors.length ≤ MAX_ERRORS := by
  induction entries with
  | nil => intro seen idx s h; exact h
  | cons p rest ih =>
    intro seen idx s h
    simp only [dupNodeLoop]
    by_cases hd : listHas seen p.1
    · simp only [hd, if_true]
      exact ih _ _ _ (stepE_le s _ _ h)
    · simp only [hd, if_false]
      exact ih _ _ _ h

theorem dupNodeStage_le (nodes : Option (JMap JNum NodeRec)) (s : VState)
    (h : s.report.errors.length ≤ MAX_ERRORS) :
    (dupNodeStage nodes s).report.errors.length ≤ MAX_ERRORS := by
  cases nodes with
  | none => exact h
  | some nm => exact dupNodeLoop_le nm.entries [] 0 s h

theorem linesEmptyCheck_le (lines : Option (List LineRec)) (s : VState)
    (h : s.report.errors.length ≤ MAX_ERRORS) :
    (linesEmptyCheck lines s).report.errors.length ≤ MAX_ERRORS := by
  unfold linesEmptyCheck
  cases lines with
  | none => exact stepE_le s _ _ h
  | some ls =>
    by_cases hz : ls.length = 0
    · simp only [hz, if_pos rfl]
      exact stepE_le s _ _ h
    · simpa [hz] using h

theorem linesLoop_le (nodes : Option (JMap JNum NodeRec)) (ls : List LineRec) :
    ∀ (seen : List JNum) (i : Nat) (s : VState), s.report.errors.length ≤ MAX_ERRORS →
      (linesLoop nodes ls seen i s).report.errors.length ≤ MAX_ERRORS := by
  induction ls with
  | nil => intro seen i s h; exact h
  | cons line rest ih =>
    intro seen i s h
    simp only [linesLoop]
    have h2 : ∀ t : VState, t.report.errors.length ≤ MAX_ERRORS →
        (if listHas seen line.id then stepE t "E_LINE_DUPLICATE"
          ("lines[" ++ toString i ++ "].id=" ++ line.id.toStr ++ " is duplicated")
         else t).report.errors.length ≤ MAX_ERRORS := by
      intro t ht
      by_cases hd : listHas seen line.id
      · simp only [hd, if_true]; exact stepE_le t _ _ ht
      · simpa [hd] using ht
    refine ih _ _ _ ?_
    have hs2 := h2 s h
    set s2 := (if listHas seen line.id then stepE s "E_LINE_DUPLICATE"
      ("lines[" ++ toString i ++ "].id=" ++ line.id.toStr ++ " is duplicated") else s) with hs2def
    have hs3 : ∀ t : VState, t.report.errors.length ≤ MAX_ERRORS →
        (match nodes with
         | some nm =>
           let sI := if !(nm.has line.nodeI) then
               stepE t "E_LINE_NODE_UNDEF"
                 ("lines[" ++ toString i ++ "].nodeI=" ++ line.nodeI.toStr ++ " is not defined in nodes")
             else t
           if !(nm.has line.nodeJ) then
             stepE sI "E_LINE_NODE_UNDEF"
               ("lines[" ++ toString i ++ "].nodeJ=" ++ line.nodeJ.toStr ++ " is not defined in nodes")
           else sI
         | none => t).report.errors.length ≤ MAX_ERRORS := by
      intro t ht
      cases nodes with
      | none => exact ht
      | some nm =>
        have hI : (if !(nm.has line.nodeI) then
            stepE t "E_LINE_NODE_UNDEF"
              ("lines[" ++ toString i ++ "].nodeI=" ++ line.nodeI.toStr ++ " is not defined in nodes")
          else t).report.errors.length ≤ MAX_ERRORS := by
          by_cases hb : !(nm.has line.nodeI)
          · simp only [hb, if_true]; exact stepE_le t _ _ ht
          · simpa [hb] using ht
        by_cases hb : !(nm.has line.nodeJ)
        · simp only [hb, if_true]
          exact stepE_le _ _ _ hI
        · simpa [hb] using hI
    have hs3v := hs3 s2 hs2
    by_cases hsl : JNum.seq line.nodeI line.nodeJ
    · simp only [hsl, if_true]
      exact stepE_le _ _ _ hs3v
    · simpa [hsl] using hs3v

theorem linesStage_le (nodes : Option (JMap JNum NodeRec)) (lines : Option (List LineRec))
    (s : VState) (h : s.report.errors.length ≤ MAX_ERRORS) :
    (linesStage nodes lines s).report.errors.length ≤ MAX_ERRORS := by
  cases lines with
  | none => exact h
  | some ls => exact linesLoop_le nodes ls [] 0 s h

theorem freqLoop_le (l : List (JNum × JNum)) :
    ∀ s : VState, s.report.errors.length ≤ MAX_ERRORS →
      (freqLoop l s).report.errors.length ≤ MAX_ERRORS := by
  induction l with
  | nil => intro s h; exact h
  | cons p rest ih =>
    intro s h
    simp only [freqLoop]
    refine ih _ ?_
    have h2 : (if p.2.isNaN then
        stepE s "E_FREQ_NAN" ("freqHz[" ++ p.1.toStr ++ "]=" ++ p.2.toStr ++ " is NaN")
      else if !p.2.isFinite then
        stepE s "E_FREQ_INFINITY" ("freqHz[" ++ p.1.toStr ++ "]=" ++ p.2.toStr ++ " is Infinity")
      else if p.2.jle (JNum.fin 0) then
        stepE s "E_FREQ_NON_POSITIVE" ("freqHz[" ++ p.1.toStr ++ "]=" ++ p.2.toStr ++ " must be > 0")
      else s).report.errors.length ≤ MAX_ERRORS := by
      by_cases h1 : p.2.isNaN
      · simp only [h1, if_true]; exact stepE_le s _ _ h
      · by_cases hf : !p.2.isFinite
        · simp only [h1, if_false, hf, if_true]; exact stepE_le s _ _ h
        · by_cases hle : p.2.jle (JNum.fin 0)
          · simp only [h1, if_false, hf, hle, if_true]; exact stepE_le s _ _ h
          · simpa [h1, hf, hle] using h
    by_cases hw : p.2.isFinite && p.2.jgt (JNum.fin 30)
    · simp only [hw, if_true]
      rw [stepW_errors]
      exact h2
    · simpa [hw] using h2

theorem freqStage_le (freqHz : Option (JMap JNum JNum)) (s : VState)
    (h : s.report.errors.length ≤ MAX_ERRORS) :
    (freqStage freqHz s).report.errors.length ≤ MAX_ERRORS := by
  cases freqHz with
  | none => exact h
  | some fm => exact freqLoop_le fm.entries s h

theorem parityLoopModes_le (fm : JMap JNum JNum) (l : List JNum) :
    ∀ s : VState, s.report.errors.length ≤ MAX_ERRORS →
      (parityLoopModes fm l s).report.errors.length ≤ MAX_ERRORS := by
  induction l with
  | nil => intro s h; exact h
  | cons m rest ih =>
    intro s h
    simp only [parityLoopModes]
    by_cases hb : !(fm.has m)
    · simp only [hb, if_true]
      exact ih _ (stepE_le s _ _ h)
    · simp only [hb, if_false]
      exact ih _ h

theorem parityLoopFreq_le (mm : JMap JNum (JMap JNum JNum)) (l : List JNum) :
    ∀ s : VState, s.report.errors.length ≤ MAX_ERRORS →
      (parityLoopFreq mm l s).report.errors.length ≤ MAX_ERRORS := by
  induction l with
  | nil => intro s h; exact h
  | cons m rest ih =>
    intro s h
    simp only [parityLoopFreq]
    by_cases hb : !(mm.has m)
    · simp only [hb, if_true]
      exact ih _ (stepE_le s _ _ h)
    · simp only [hb, if_false]
      exact ih _ h

theorem parityStage_le (modes : Option (JMap JNum (JMap JNum JNum)))
    (freqHz : Option (JMap JNum JNum)) (s : VState)
    (h : s.report.errors.length ≤ MAX_ERRORS) :
    (parityStage modes freqHz s).report.errors.length ≤ MAX_ERRORS := by
  cases modes with
  | none => cases freqHz <;> exact h
  | some mm =>
    cases freqHz with
    | none => exact h
    | some fm =>
      exact parityLoopFreq_le mm fm.keysList _ (parityLoopModes_le fm mm.keysList s h)

theorem uzLoop_le (nodes : JMap JNum NodeRec) (modeNum : JNum) (l : List (JNum × JNum)) :
    ∀ (az : Bool) (s : VState), s.report.errors.length ≤ MAX_ERRORS →
      ((uzLoop nodes modeNum l az s).1).report.errors.length ≤ MAX_ERRORS := by
  induction l with
  | nil => intro az s h; exact h
  | cons p rest ih =>
    intro az s h
    simp only [uzLoop]
    refine ih _ _ ?_
    have h2 : (if !(nodes.has p.1) then
        stepE s "E_MODE_NODE_UNDEF"
          ("modes[" ++ modeNum.toStr ++ "] references undefined node " ++ p.1.toStr)
      else s).report.errors.length ≤ MAX_ERRORS := by
      by_cases hb : !(nodes.has p.1)
      · simp only [hb, if_true]; exact stepE_le s _ _ h
      · simpa [hb] using h
    by_cases h1 : p.2.isNaN
    · simp only [h1, if_true]
      exact stepE_le _ _ _ h2
    · by_cases hf : !p.2.isFinite
      · simp only [h1, if_false, hf, if_true]
        exact stepE_le _ _ _ h2
      · simpa [h1, hf] using h2

theorem modesLoop_le (nodes : JMap JNum NodeRec) (l : List (JNum × JMap JNum JNum)) :
    ∀ s : VState, s.report.errors.length ≤ MAX_ERRORS →
      (modesLoop nodes l s).report.errors.length ≤ MAX_ERRORS := by
  induction l with
  | nil => intro s h; exact h
  | cons p rest ih =>
    intro s h
    simp only [modesLoop]
    refine ih _ ?_
    have h2 := uzLoop_le nodes p.1 p.2.entries true s h
    by_cases hb : (uzLoop nodes p.1 p.2.entries true s).2 && !(p.2.size = 0)
    · simp only [hb, if_true]
      rw [stepW_errors]
      exact h2
    · simpa [hb] using h2

theorem modesStage_le (modes : Option (JMap JNum (JMap JNum JNum)))
    (nodes : Option (JMap JNum NodeRec)) (s : VState)
    (h : s.report.errors.length ≤ MAX_ERRORS) :
    (modesStage modes nodes s).report.errors.length ≤ MAX_ERRORS := by
  cases modes with
  | none => cases nodes <;> exact h
  | some mm =>
    cases nodes with
    | none => exact h
    | some nm => exact modesLoop_le nm mm.entries s h

theorem zMixedCheck_errors (nodes : Option (JMap JNum NodeRec)) (s : VState) :
    (zMixedCheck nodes s).report.errors = s.report.errors := by
  unfold zMixedCheck
  cases nodes with
  | none => rfl
  | some nm =>
    by_cases hz : 0 < nm.size
    · simp only [hz, if_true]
      cases hv : nm.valuesList.map (fun n => n.z) with
      | nil => rfl
      | cons z0 zrest =>
        by_cases hm : (z0 :: zrest).any (fun z => (z.jsub z0).jabs.jgt (JNum.fin EPS))
        · simp only [hm, if_true]
          rw [stepW_errors]
        · simp [hm]
    · simp [hz]

/-- C3: validateFloorData is a total function (the embedding never fails),
and for every input the returned errors list never exceeds the fixed cap of
100 entries: pushError refuses appends at the cap and each check returns
the report accumulated so far as soon as the cap is reached. -/
theorem validate_error_cap (inp : VInput) :
    (validateFloorData inp).errors.length ≤ 100 := by
  show (validateFloorData inp).errors.length ≤ MAX_ERRORS
  unfold validateFloorData
  rw [zMixedCheck_errors]
  refine modesStage_le _ _ _ ?_
  refine parityStage_le _ _ _ ?_
  refine freqStage_le _ _ ?_
  refine linesStage_le _ _ _ ?_
  refine linesEmptyCheck_le _ _ ?_
  refine dupNodeStage_le _ _ ?_
  refine nodesEmptyCheck_le _ _ ?_
  rw [haltIfErrors_errors]
  refine requiredLoop_le _ _ ?_
  simp [MAX_ERRORS]

/-- C10: the 100-entry cap applies only to the errors list: pushWarning
appends unconditionally, so an input with 101 finite frequencies above
30 Hz makes validateFloorData return 101 W_FREQ_HIGH warnings — more than
100. -/
theorem warnings_not_capped :
    100 < (validateFloorData inpManyWarnings).warnings.length
    ∧ (validateFloorData inpManyWarnings).warnings.length = 101
    ∧ ∀ (l : List Entry) (c m : String), (pushWarning l c m).length = l.length + 1 :=
  ⟨by decide, by decide, fun l c m => by simp [pushWarning]⟩

/-- C1: evaluation at a dataset whose nodes array lists id 1 twice: the
canonical node map does keep the last-seen coordinates and nodeIdCounts
does record 2 occurrences, but validateFloorData reports zero
E_NODE_DUPLICATE entries (it scans the already-deduplicated Map and never
consults nodeIdCounts), not the one entry the specification promises. -/
theorem node_duplicate_never_reported :
    ((validateFloorData (toVInput (parseFloorData rawDupNodes))).errors.filter
        (fun e => e.code == "E_NODE_DUPLICATE")).length = 0
    ∧ (parseFloorData rawDupNodes).nodes.get? (JNum.fin 1)
        = some ⟨JNum.fin 1, JNum.fin 5, JNum.fin 6, JNum.fin 7⟩
    ∧ (parseFloorData rawDupNodes).nodeIdCounts.get? (JNum.fin 1) = some 2 :=
  ⟨by decide, by decide, by decide⟩
